import Mathlib

/-!
Shallow embedding of the iCloud-Calendar MCP adapter (`src/index.ts`).

The program is a single-file request/response adapter: it advertises five
tool descriptors, renders AppleScript text from tool-call arguments,
runs it through `osascript` (modelled here by an oracle `Osa` mapping the
script text and the timeout to an exec outcome), and parses the textual
reply back into records.  Machinery that the TypeScript runtime supplies
(JS `Date` parsing, the `osascript` subprocess) is modelled by explicit
function parameters (`parse : String → JSDate`, `osa : Osa`); everything
else is translated line by line from the source.
-/

/-- Error codes of the MCP protocol used by the adapter: `MethodNotFound`
for unknown tool names, `InternalError` for subprocess failures. -/
inductive ErrorCode where
  | MethodNotFound
  | InternalError
deriving DecidableEq

/-- An `McpError` as thrown by the handlers: a code plus a message. -/
structure McpError where
  code : ErrorCode
  message : String
deriving DecidableEq

/-- Outcome of one `osascript` invocation: either captured stdout, or an
exec error whose `stderr` and `message` fields may each be absent. -/
inductive ExecResult where
  | ok (stdout : String)
  | err (stderr : Option String) (message : Option String)
deriving DecidableEq

/-- The external interpreter, as an oracle from the full script text and
the timeout for the run (in milliseconds) to the outcome. -/
abbrev Osa := String → Nat → ExecResult

/-- JavaScript `a || b` on a possibly-absent string: `undefined` and the
empty string are falsy. -/
def jsOrString (a : Option String) (b : String) : String :=
  match a with
  | none => b
  | some s => if s = "" then b else s

/-- JavaScript truthiness of a possibly-absent string (`if (x)`). -/
def jsTruthyS (a : Option String) : Bool :=
  match a with
  | none => false
  | some s => s != ""

/-- JavaScript `String.prototype.trim`: strip whitespace from both ends
(structural, so that concrete replies evaluate). -/
def jsTrim (s : String) : String :=
  String.mk (((s.data.dropWhile Char.isWhitespace).reverse.dropWhile Char.isWhitespace).reverse)

/-- Fuel-driven scanner behind `jsSplit`: emit the accumulated segment at
each non-overlapping occurrence of the separator, scanning left to
right.  The fuel starts at the input length and strictly bounds the
number of steps, so the fallback branch is never reached. -/
def splitOnFuel (sep : List Char) : Nat → List Char → List Char → List (List Char)
  | _, [], acc => [acc.reverse]
  | 0, rest, acc => [acc.reverse ++ rest]
  | Nat.succ fuel, x :: t, acc =>
    if sep.isPrefixOf (x :: t) then
      acc.reverse :: splitOnFuel sep fuel (List.drop (sep.length - 1) t) []
    else splitOnFuel sep fuel t (x :: acc)

/-- JavaScript `String.prototype.split` for a non-empty string separator:
split at each non-overlapping occurrence, left to right; a trailing
separator yields a trailing empty segment, and the empty string splits
to one empty segment. -/
def jsSplit (s sep : String) : List String :=
  (splitOnFuel sep.data s.data.length s.data []).map String.mk

/-- `interface CalendarInfo` from the source. -/
structure CalendarInfo where
  name : String
  id : String
deriving DecidableEq

/-- `interface EventInfo` from the source. -/
structure EventInfo where
  id : String
  summary : String
  startDate : String
  endDate : String
  location : String
  description : String
  calendar : String
  isAllDay : Bool
deriving DecidableEq

/-- Global single-character regex replacement, the semantics of
JavaScript `str.replace(/c/g, r)` for a one-character pattern `c`. -/
def replChar (c : Char) (r : List Char) : List Char → List Char
  | [] => []
  | x :: t => (if x = c then r else [x]) ++ replChar c r t

/-- `escapeForAppleScript` from the source: first double every backslash,
then put a backslash before every double quote. -/
def escapeForAppleScript (str : String) : String :=
  String.mk (replChar '"' ['\\', '"'] (replChar '\\' ['\\', '\\'] str.data))

/-- The per-character escaping map the spec describes: a backslash becomes
two backslashes, a double quote becomes backslash-quote, anything else is
unchanged. -/
def escChar (c : Char) : List Char :=
  if c = '\\' then ['\\', '\\'] else if c = '"' then ['\\', '"'] else [c]

/-- Simultaneous (single-pass) application of `escChar` to every
character, the rendering the spec sentence describes. -/
def escapeSimultaneous : List Char → List Char
  | [] => []
  | c :: t => escChar c ++ escapeSimultaneous t

/-- Scanner for the body of an AppleScript double-quoted literal, started
just after the opening quote: a backslash consumes the following
character, the first unescaped double quote closes the literal.  Returns
the consumed body and the remainder, or `none` if the literal never
closes. -/
def scanQuoted : List Char → Option (List Char × List Char)
  | [] => none
  | x :: rest =>
    if x = '"' then some ([], rest)
    else if x = '\\' then
      match rest with
      | [] => none
      | y :: rest2 =>
        match scanQuoted rest2 with
        | none => none
        | some p => some (x :: y :: p.1, p.2)
    else
      match scanQuoted rest with
      | none => none
      | some p => some (x :: p.1, p.2)

/-- The local-time components a JavaScript `Date` exposes; `monthIndex`
is zero-based as returned by `getMonth()`. -/
structure JSDate where
  day : Nat
  monthIndex : Nat
  year : Nat
  hours : Nat
  minutes : Nat
  seconds : Nat
deriving DecidableEq

/-- JavaScript `s.padStart(2, "0")`. -/
def padStart2 (s : String) : String :=
  if s.length ≥ 2 then s else String.mk (List.replicate (2 - s.length) '0' ++ s.data)

/-- `formatDateForAppleScript` from the source, applied to the components
of the already-parsed `Date`: day, month (`getMonth() + 1`) and year
unpadded, hours and minutes padded to two digits, and the seconds field
rendered as the literal text `00`. -/
def formatDateForAppleScript (d : JSDate) : String :=
  let day := d.day
  let month := d.monthIndex + 1
  let year := d.year
  let hours := d.hours
  let minutes := d.minutes
  toString day ++ "/" ++ toString month ++ "/" ++ toString year ++ " " ++
    padStart2 (toString hours) ++ ":" ++ padStart2 (toString minutes) ++ ":00"

/-- Rendering in the format the specification sentence describes:
day/month/year hour:minute:second with the instant's own seconds in the
final field.  Used only to compare `formatDateForAppleScript` against the
spec's words. -/
def specFormatDMYHMS (d : JSDate) : String :=
  toString d.day ++ "/" ++ toString (d.monthIndex + 1) ++ "/" ++ toString d.year ++ " " ++
    padStart2 (toString d.hours) ++ ":" ++ padStart2 (toString d.minutes) ++ ":" ++
    padStart2 (toString d.seconds)

/-- The launch preamble `runAppleScript` wraps around every script before
handing it to `osascript`. -/
def launchWrap (script : String) : String :=
  "\n    tell application \"Calendar\"\n      launch\n    end tell\n    delay 0.5\n    " ++
    script ++ "\n  "

/-- `runAppleScript` from the source.  The oracle is consulted once, at
the fixed 30000 ms timeout.  On success the trimmed stdout is returned;
on failure an `InternalError` carrying `stderr || message ||
"AppleScript error"` is raised.  The second component records the script
texts handed to the interpreter. -/
def runAppleScript (osa : Osa) (script : String) : Except McpError String × List String :=
  let launchScript := launchWrap script
  (match osa launchScript 30000 with
   | ExecResult.ok stdout => Except.ok (jsTrim stdout)
   | ExecResult.err stderr message =>
     Except.error ⟨ErrorCode.InternalError, jsOrString stderr (jsOrString message "AppleScript error")⟩,
   [launchScript])

/-- A single apostrophe, used inside the AppleScript templates. -/
def apos : String := String.mk [Char.ofNat 39]

/-- The script rendered by `listCalendars`. -/
def listCalendarsScript : String :=
  "\n    tell application \"Calendar\"\n      set calNames to name of calendars\n      set AppleScript" ++
    apos ++
    "s text item delimiters to \"~~~\"\n      return calNames as text\n    end tell\n  "

/-- `listCalendars` from the source: run the enumeration script, return
`[]` on an empty reply, otherwise split on the rare delimiter and assign
zero-based indices. -/
def listCalendars (osa : Osa) : Except McpError (List CalendarInfo) × List String :=
  match runAppleScript osa listCalendarsScript with
  | (Except.ok result, calls) =>
    (if result = "" then Except.ok []
     else Except.ok ((jsSplit result "~~~").mapIdx (fun index name => { name := jsTrim name, id := toString index })),
     calls)
  | (Except.error e, calls) => (Except.error e, calls)

/-- The script rendered by `listEvents`; note the calendar-name filter is
interpolated unescaped, exactly as in the source. -/
def buildListEventsScript (parse : String → JSDate) (startDate endDate : String)
    (calendarName : Option String) : String :=
  let calendarPart :=
    match calendarName with
    | some cn =>
      if cn = "" then "set cals to calendars"
      else "set cals to \x7bcalendar \"" ++ cn ++ "\"\x7d"
    | none => "set cals to calendars"
  "\n    tell application \"Calendar\"\n      set startD to date \"" ++
    formatDateForAppleScript (parse startDate) ++
    "\"\n      set endD to date \"" ++
    formatDateForAppleScript (parse endDate) ++
    "\"\n      set eventList to \x7b\x7d\n      " ++ calendarPart ++
    "\n\n      repeat with c in cals\n        try\n          set calEvents to (every event of c whose start date >= startD and start date <= endD)\n          repeat with e in calEvents\n            set eventSummary to summary of e\n            set eventStart to start date of e\n            set eventEnd to end date of e\n            set eventAllDay to allday event of e\n            set calName to name of c\n            set eventLoc to \"\"\n            try\n              set eventLoc to location of e\n            on error\n              set eventLoc to \"\"\n            end try\n\n            set eventInfo to eventSummary & \"|||\" & (eventStart as string) & \"|||\" & (eventEnd as string) & \"|||\" & eventLoc & \"|||\" & calName & \"|||\" & eventAllDay\n            set end of eventList to eventInfo\n          end repeat\n        end try\n      end repeat\n\n      set AppleScript" ++
    apos ++
    "s text item delimiters to \"~~~\"\n      return eventList as text\n    end tell\n  "

/-- One record of the `listEvents` reply: fields split on the `|||`
delimiter, missing fields defaulting to the empty string (`parts[i] ||
""` over a possibly short array), `description` always empty, `id` the
decimal string of the record's position, `isAllDay` true exactly when the
sixth field is `"true"`. -/
def parseOneEvent (index : Nat) (item : String) : EventInfo :=
  let parts := jsSplit item "|||"
  { id := toString index,
    summary := parts.getD 0 "",
    startDate := parts.getD 1 "",
    endDate := parts.getD 2 "",
    location := parts.getD 3 "",
    description := "",
    calendar := parts.getD 4 "",
    isAllDay := parts.getD 5 "" == "true" }

/-- The reply parser of `listEvents`: split the reply into records on the
`~~~` delimiter and parse each with its zero-based index. -/
def parseEventsReply (result : String) : List EventInfo :=
  (jsSplit result "~~~").mapIdx parseOneEvent

/-- `listEvents` from the source. -/
def listEvents (osa : Osa) (parse : String → JSDate) (startDate endDate : String)
    (calendarName : Option String) : Except McpError (List EventInfo) × List String :=
  match runAppleScript osa (buildListEventsScript parse startDate endDate calendarName) with
  | (Except.ok result, calls) =>
    (if result = "" then Except.ok [] else Except.ok (parseEventsReply result), calls)
  | (Except.error e, calls) => (Except.error e, calls)

/-- The script rendered by `createEvent`, including the optional property
clauses and one alarm-attachment statement per alarm. -/
def buildCreateEventScript (parse : String → JSDate) (title startDate endDate : String)
    (calendarName location description : Option String) (isAllDay : Option Bool)
    (alarms : Option (List Int)) : String :=
  let targetCalendar := jsOrString calendarName "Kalender"
  let locationProp :=
    match location with
    | some l => if l = "" then "" else ", location:\"" ++ escapeForAppleScript l ++ "\""
    | none => ""
  let descProp :=
    match description with
    | some d => if d = "" then "" else ", description:\"" ++ escapeForAppleScript d ++ "\""
    | none => ""
  let allDayProp := if isAllDay.getD false then ", allday event:true" else ""
  let alarmCommands :=
    match alarms with
    | some a =>
      if a.length > 0 then
        "\n        " ++ String.intercalate "\n        " (a.map (fun minutes =>
          "make new display alarm at end of display alarms of newEvent with properties \x7btrigger interval:" ++
            toString minutes ++ "\x7d"))
      else ""
    | none => ""
  "\n    tell application \"Calendar\"\n      tell calendar \"" ++
    escapeForAppleScript targetCalendar ++
    "\"\n        set newEvent to make new event with properties \x7bsummary:\"" ++
    escapeForAppleScript title ++
    "\", start date:date \"" ++ formatDateForAppleScript (parse startDate) ++
    "\", end date:date \"" ++ formatDateForAppleScript (parse endDate) ++
    "\"" ++ allDayProp ++ locationProp ++ descProp ++ "\x7d" ++ alarmCommands ++
    "\n        return \"created\"\n      end tell\n    end tell\n  "

/-- `createEvent` from the source: run the creation script and return the
title as the synthetic identifier. -/
def createEvent (osa : Osa) (parse : String → JSDate) (title startDate endDate : String)
    (calendarName location description : Option String) (isAllDay : Option Bool)
    (alarms : Option (List Int)) : Except McpError String × List String :=
  match runAppleScript osa (buildCreateEventScript parse title startDate endDate calendarName location description isAllDay alarms) with
  | (Except.ok _, calls) => (Except.ok title, calls)
  | (Except.error e, calls) => (Except.error e, calls)

/-- The assignment statements `updateEvent` pushes: `newTitle`,
`startDate` and `endDate` under JS truthiness (`if (x)`, so absent and
empty both skip), `location` and `description` under a presence test
(`x !== undefined`, so the empty string still counts). -/
def updateSetProperties (parse : String → JSDate)
    (newTitle startDate endDate location description : Option String) : List String :=
  (match newTitle with
   | some t => if t = "" then [] else ["set summary of targetEvent to \"" ++ escapeForAppleScript t ++ "\""]
   | none => []) ++
  (match startDate with
   | some s => if s = "" then [] else ["set start date of targetEvent to date \"" ++ formatDateForAppleScript (parse s) ++ "\""]
   | none => []) ++
  (match endDate with
   | some s => if s = "" then [] else ["set end date of targetEvent to date \"" ++ formatDateForAppleScript (parse s) ++ "\""]
   | none => []) ++
  (match location with
   | some l => ["set location of targetEvent to \"" ++ escapeForAppleScript l ++ "\""]
   | none => []) ++
  (match description with
   | some d => ["set description of targetEvent to \"" ++ escapeForAppleScript d ++ "\""]
   | none => [])

/-- The script rendered by `updateEvent` once at least one assignment
statement exists. -/
def buildUpdateEventScript (eventSummary calendarName : String)
    (setProperties : List String) : String :=
  "\n    tell application \"Calendar\"\n      tell calendar \"" ++
    escapeForAppleScript calendarName ++
    "\"\n        set targetEvent to (first event whose summary is \"" ++
    escapeForAppleScript eventSummary ++
    "\")\n        " ++ String.intercalate "\n        " setProperties ++
    "\n        return \"success\"\n      end tell\n    end tell\n  "

/-- `updateEvent` from the source: with no assignment statements it
returns immediately without consulting the interpreter. -/
def updateEvent (osa : Osa) (parse : String → JSDate) (eventSummary calendarName : String)
    (newTitle startDate endDate location description : Option String) :
    Except McpError Unit × List String :=
  let setProperties := updateSetProperties parse newTitle startDate endDate location description
  if setProperties.length = 0 then (Except.ok (), [])
  else
    match runAppleScript osa (buildUpdateEventScript eventSummary calendarName setProperties) with
    | (Except.ok _, calls) => (Except.ok (), calls)
    | (Except.error e, calls) => (Except.error e, calls)

/-- The script rendered by `deleteEvent`. -/
def buildDeleteEventScript (eventSummary calendarName : String) : String :=
  "\n    tell application \"Calendar\"\n      tell calendar \"" ++
    escapeForAppleScript calendarName ++
    "\"\n        set targetEvent to (first event whose summary is \"" ++
    escapeForAppleScript eventSummary ++
    "\")\n        delete targetEvent\n        return \"success\"\n      end tell\n    end tell\n  "

/-- `deleteEvent` from the source. -/
def deleteEvent (osa : Osa) (eventSummary calendarName : String) :
    Except McpError Unit × List String :=
  match runAppleScript osa (buildDeleteEventScript eventSummary calendarName) with
  | (Except.ok _, calls) => (Except.ok (), calls)
  | (Except.error e, calls) => (Except.error e, calls)

/-- The argument mapping of an invoke-operation request; every field is
optional, matching a JSON object of unknown shape.  The TypeScript
handler casts the mapping per tool and asserts required fields are
present; an absent required field is modelled as the empty string at the
extraction sites below. -/
structure Args where
  title : Option String := none
  startDate : Option String := none
  endDate : Option String := none
  calendarName : Option String := none
  location : Option String := none
  description : Option String := none
  isAllDay : Option Bool := none
  alarms : Option (List Int) := none
  eventSummary : Option String := none
  newTitle : Option String := none
deriving DecidableEq

/-- The JSON object each handler branch serializes into the response
envelope, kept structural. -/
inductive ToolResult where
  | calendars (cals : List CalendarInfo)
  | events (evs : List EventInfo)
  | created (success : Bool) (message : String) (eventId : String)
  | updated (success : Bool) (message : String) (eventSummary : String)
  | deleted (success : Bool) (message : String) (eventSummary : String)
deriving DecidableEq

/-- The `CallToolRequestSchema` handler: dispatch on the tool name, run
the operation, wrap its result; any unknown name yields the
`MethodNotFound` error (the surrounding catch re-throws `McpError`
values unchanged, and every failure in the model is already one). -/
def callToolHandler (osa : Osa) (parse : String → JSDate) (name : String) (args : Args) :
    Except McpError ToolResult × List String :=
  if name = "list_calendars" then
    match listCalendars osa with
    | (Except.ok cals, calls) => (Except.ok (ToolResult.calendars cals), calls)
    | (Except.error e, calls) => (Except.error e, calls)
  else if name = "list_events" then
    match listEvents osa parse (args.startDate.getD "") (args.endDate.getD "") args.calendarName with
    | (Except.ok evs, calls) => (Except.ok (ToolResult.events evs), calls)
    | (Except.error e, calls) => (Except.error e, calls)
  else if name = "create_event" then
    match createEvent osa parse (args.title.getD "") (args.startDate.getD "") (args.endDate.getD "") args.calendarName args.location args.description args.isAllDay args.alarms with
    | (Except.ok eventId, calls) => (Except.ok (ToolResult.created true "Event created" eventId), calls)
    | (Except.error e, calls) => (Except.error e, calls)
  else if name = "update_event" then
    match updateEvent osa parse (args.eventSummary.getD "") (args.calendarName.getD "") args.newTitle args.startDate args.endDate args.location args.description with
    | (Except.ok _, calls) => (Except.ok (ToolResult.updated true "Event updated" (args.eventSummary.getD "")), calls)
    | (Except.error e, calls) => (Except.error e, calls)
  else if name = "delete_event" then
    match deleteEvent osa (args.eventSummary.getD "") (args.calendarName.getD "") with
    | (Except.ok _, calls) => (Except.ok (ToolResult.deleted true "Event deleted" (args.eventSummary.getD "")), calls)
    | (Except.error e, calls) => (Except.error e, calls)
  else
    (Except.error ⟨ErrorCode.MethodNotFound, "Unknown tool: " ++ name⟩, [])

/-- Primitive types appearing in the advertised JSON schemas. -/
inductive SchemaType where
  | string
  | boolean
  | numberArray
deriving DecidableEq

/-- One property of an advertised input schema. -/
structure PropDef where
  name : String
  type : SchemaType
  description : String
deriving DecidableEq

/-- One advertised tool descriptor: name, human-readable description,
input-schema properties in declaration order, and required field names. -/
structure ToolDescriptor where
  name : String
  description : String
  properties : List PropDef
  required : List String
deriving DecidableEq

/-- The `ListToolsRequestSchema` handler: a constant list of the five
tool descriptors, transcribed from the source. -/
def listToolsHandler : List ToolDescriptor :=
  [ { name := "list_calendars",
      description := "List all available calendars including iCloud, local, and subscribed calendars.",
      properties := [],
      required := [] },
    { name := "list_events",
      description := "List calendar events within a date range. Can filter by specific calendar.",
      properties :=
        [ { name := "startDate", type := SchemaType.string,
            description := "Start date in ISO8601 format (e.g., 2024-01-15T00:00:00Z)" },
          { name := "endDate", type := SchemaType.string,
            description := "End date in ISO8601 format (e.g., 2024-01-31T23:59:59Z)" },
          { name := "calendarName", type := SchemaType.string,
            description := "Optional: Filter events by calendar name. If not provided, returns events from all calendars." } ],
      required := ["startDate", "endDate"] },
    { name := "create_event",
      description := "Create a new calendar event. Specify title, start/end dates, and optionally calendar, location, and description.",
      properties :=
        [ { name := "title", type := SchemaType.string,
            description := "Event title" },
          { name := "startDate", type := SchemaType.string,
            description := "Start date in ISO8601 format (e.g., 2024-01-15T10:00:00Z)" },
          { name := "endDate", type := SchemaType.string,
            description := "End date in ISO8601 format (e.g., 2024-01-15T11:00:00Z)" },
          { name := "calendarName", type := SchemaType.string,
            description := "Optional: Calendar name to create event in. Uses default calendar if not specified." },
          { name := "isAllDay", type := SchemaType.boolean,
            description := "Optional: Whether this is an all-day event" },
          { name := "location", type := SchemaType.string,
            description := "Optional: Event location" },
          { name := "description", type := SchemaType.string,
            description := "Optional: Event description" },
          { name := "alarms", type := SchemaType.numberArray,
            description := "Optional: Array of alarm times in minutes before the event. Negative values for before event (e.g., -15 for 15 minutes before, -60 for 1 hour before). Use -1440 for 1 day before." } ],
      required := ["title", "startDate", "endDate"] },
    { name := "update_event",
      description := "Update an existing calendar event by its summary/title and calendar name. Only specified fields will be updated.",
      properties :=
        [ { name := "eventSummary", type := SchemaType.string,
            description := "The current event title/summary to find" },
          { name := "calendarName", type := SchemaType.string,
            description := "The calendar name where the event is located" },
          { name := "newTitle", type := SchemaType.string,
            description := "Optional: New event title" },
          { name := "startDate", type := SchemaType.string,
            description := "Optional: New start date in ISO8601 format" },
          { name := "endDate", type := SchemaType.string,
            description := "Optional: New end date in ISO8601 format" },
          { name := "location", type := SchemaType.string,
            description := "Optional: New event location" },
          { name := "description", type := SchemaType.string,
            description := "Optional: New event description" } ],
      required := ["eventSummary", "calendarName"] },
    { name := "delete_event",
      description := "Delete a calendar event by its summary/title and calendar name.",
      properties :=
        [ { name := "eventSummary", type := SchemaType.string,
            description := "The event title/summary to delete" },
          { name := "calendarName", type := SchemaType.string,
            description := "The calendar name where the event is located" } ],
      required := ["eventSummary", "calendarName"] } ]

/-- The two sequential global replacements of `escapeForAppleScript`
coincide with the single-pass per-character map `escapeSimultaneous`. -/
theorem replChar_escape_eq_simultaneous (l : List Char) :
    replChar '"' ['\\', '"'] (replChar '\\' ['\\', '\\'] l) = escapeSimultaneous l := by
  induction l with
  | nil => rfl
  | cons c t ih =>
    by_cases hb : c = '\\'
    · subst hb
      simp [replChar, escapeSimultaneous, escChar, ih]
    · by_cases hq : c = '"'
      · subst hq
        simp [replChar, escapeSimultaneous, escChar, ih]
      · simp [replChar, escapeSimultaneous, escChar, hb, hq, ih]

/-- Behavior of the scanner on an ordinary character: it is consumed and
scanning continues. -/
theorem scanQuoted_cons_other (c : Char) (rest : List Char) (hq : c = '"' → False)
    (hb : c = '\\' → False) :
    scanQuoted (c :: rest) =
      match scanQuoted rest with
      | none => none
      | some p => some (c :: p.1, p.2) := by
  rw [scanQuoted.eq_def]
  simp only [if_neg hq, if_neg hb]

/-- Behavior of the scanner on a backslash: the escaped character is
consumed along with it. -/
theorem scanQuoted_cons_backslash (y : Char) (rest : List Char) :
    scanQuoted ('\\' :: y :: rest) =
      match scanQuoted rest with
      | none => none
      | some p => some ('\\' :: y :: p.1, p.2) := rfl

/-- Unfolding lemma for `escapeSimultaneous` on a cons cell. -/
theorem escapeSimultaneous_cons (c : Char) (t : List Char) :
    escapeSimultaneous (c :: t) = escChar c ++ escapeSimultaneous t := rfl

/-- `escChar` on a backslash. -/
theorem escChar_backslash : escChar '\\' = ['\\', '\\'] := rfl

/-- `escChar` on a double quote. -/
theorem escChar_quote : escChar '"' = ['\\', '"'] := rfl

/-- The scanner never closes early on an escaped string: appending the
closing quote, the whole escaped text is consumed as the literal body. -/
theorem scanQuoted_escapeSimultaneous (l : List Char) :
    scanQuoted (escapeSimultaneous l ++ ['"']) = some (escapeSimultaneous l, []) := by
  induction l with
  | nil => rfl
  | cons c t ih =>
    by_cases hb : c = '\\'
    · subst hb
      rw [escapeSimultaneous_cons, escChar_backslash]
      simp only [List.cons_append, List.nil_append]
      rw [scanQuoted_cons_backslash, ih]
    · by_cases hq : c = '"'
      · subst hq
        rw [escapeSimultaneous_cons, escChar_quote]
        simp only [List.cons_append, List.nil_append]
        rw [scanQuoted_cons_backslash, ih]
      · rw [escapeSimultaneous_cons, show escChar c = [c] by simp [escChar, hb, hq]]
        simp only [List.cons_append, List.nil_append]
        rw [scanQuoted_cons_other c _ (fun h => hq h) (fun h => hb h), ih]

/-- Concatenation of strings is associative (not available as a library
lemma in this toolchain). -/
theorem stringAppendAssoc (a b c : String) : a ++ b ++ c = a ++ (b ++ c) := by
  cases a with
  | mk la =>
    cases b with
    | mk lb =>
      cases c with
      | mk lc =>
        show String.mk (la ++ lb ++ lc) = String.mk (la ++ (lb ++ lc))
        rw [List.append_assoc]

/-- C2: `escapeForAppleScript` escapes exactly backslashes and double
quotes — each backslash becomes two backslashes, each double quote
becomes backslash-quote, every other character is unchanged (the
single-pass map `escapeSimultaneous`) — and the escaped value placed
between double quotes never terminates the surrounding quoted literal
early: the scanner consumes the whole escaped text and closes only at
the final appended quote. -/
theorem escapeForAppleScript_escapes_and_stays_quoted (s : String) :
    (escapeForAppleScript s).data = escapeSimultaneous s.data ∧
    scanQuoted ((escapeForAppleScript s).data ++ ['"']) =
      some ((escapeForAppleScript s).data, []) := by
  have h1 : (escapeForAppleScript s).data = escapeSimultaneous s.data := by
    simp only [escapeForAppleScript]
    exact replChar_escape_eq_simultaneous s.data
  refine ⟨h1, ?_⟩
  rw [h1]
  exact scanQuoted_escapeSimultaneous s.data

/-- C5 counterexample: at an instant whose seconds component is 30, the
rendered text carries `00` in the seconds field, not the instant's
second, so the rendering differs from the claimed
day/month/year hour:minute:second format of the instant. -/
theorem formatDate_seconds_counterexample :
    formatDateForAppleScript ⟨1, 2, 2024, 9, 5, 30⟩ = "1/3/2024 09:05:00" ∧
    specFormatDMYHMS ⟨1, 2, 2024, 9, 5, 30⟩ = "1/3/2024 09:05:30" ∧
    formatDateForAppleScript ⟨1, 2, 2024, 9, 5, 30⟩ ≠ specFormatDMYHMS ⟨1, 2, 2024, 9, 5, 30⟩ := by
  refine ⟨rfl, rfl, ?_⟩
  decide

/-- C5 (amended): `formatDateForAppleScript` renders the instant's day,
month, year, hour and minute in the fixed order day/month/year
hour:minute:second, but the seconds field is always the literal `00`:
the rendering equals the claimed format applied to the instant with its
seconds component replaced by zero. -/
theorem formatDate_renders_zero_seconds (d : JSDate) :
    formatDateForAppleScript d = specFormatDMYHMS { d with seconds := 0 } := by
  unfold formatDateForAppleScript specFormatDMYHMS
  conv_rhs => rw [stringAppendAssoc]
  show _ = _ ++ (":" ++ padStart2 (toString 0))
  rfl

/-- C4: the list-available-operations handler is the constant list of
exactly the five advertised descriptors, with the documented required
and optional argument sets (properties are listed in declaration order;
the optional arguments are the properties outside the required set). -/
theorem listToolsHandler_descriptors :
    listToolsHandler.map ToolDescriptor.name =
      ["list_calendars", "list_events", "create_event", "update_event", "delete_event"] ∧
    listToolsHandler.map ToolDescriptor.required =
      [[], ["startDate", "endDate"], ["title", "startDate", "endDate"],
        ["eventSummary", "calendarName"], ["eventSummary", "calendarName"]] ∧
    listToolsHandler.map (fun t => t.properties.map PropDef.name) =
      [[], ["startDate", "endDate", "calendarName"],
        ["title", "startDate", "endDate", "calendarName", "isAllDay", "location", "description", "alarms"],
        ["eventSummary", "calendarName", "newTitle", "startDate", "endDate", "location", "description"],
        ["eventSummary", "calendarName"]] :=
  ⟨rfl, rfl, rfl⟩

/-- C6: `runAppleScript` consults the interpreter once at the fixed
30000 ms (30 second) timeout; on success it returns the trimmed stdout,
and on failure its sole failure is an `InternalError` carrying the
stderr stream when that is non-empty, otherwise the error's message,
otherwise the generic text; moreover the outcome depends on the oracle
only through that single 30000 ms query. -/
theorem runAppleScript_contract (osa : Osa) (script : String) :
    (∀ out, osa (launchWrap script) 30000 = ExecResult.ok out →
      runAppleScript osa script = (Except.ok (jsTrim out), [launchWrap script])) ∧
    (∀ se m, osa (launchWrap script) 30000 = ExecResult.err se m →
      runAppleScript osa script =
        (Except.error ⟨ErrorCode.InternalError, jsOrString se (jsOrString m "AppleScript error")⟩,
          [launchWrap script])) ∧
    (∀ osa2 : Osa, osa2 (launchWrap script) 30000 = osa (launchWrap script) 30000 →
      runAppleScript osa2 script = runAppleScript osa script) := by
  refine ⟨?_, ?_, ?_⟩
  · intro out h
    simp [runAppleScript, h]
  · intro se m h
    simp [runAppleScript, h]
  · intro osa2 h
    simp [runAppleScript, h]

/-- Witness for C6 at a concrete failing oracle: stderr `"boom"` is
surfaced verbatim as the internal error. -/
theorem runAppleScript_contract_witness :
    (fun _ _ => ExecResult.err (some "boom") none : Osa) (launchWrap "x") 30000 =
      ExecResult.err (some "boom") none ∧
    runAppleScript (fun _ _ => ExecResult.err (some "boom") none) "x" =
      (Except.error ⟨ErrorCode.InternalError, "boom"⟩, [launchWrap "x"]) := by
  refine ⟨rfl, ?_⟩
  have h := (runAppleScript_contract (fun _ _ => ExecResult.err (some "boom") none) "x").2.1
    (some "boom") none rfl
  simpa [jsOrString] using h

/-- C1: invoking any operation name outside the five registered ones
yields the method-not-found error (with the `Unknown tool` text), makes
no interpreter call, and never an internal error — for every argument
mapping and every behavior of the interpreter. -/
theorem callToolHandler_unknown_method_not_found (osa : Osa) (parse : String → JSDate)
    (name : String) (args : Args)
    (h : name ∉ (["list_calendars", "list_events", "create_event", "update_event", "delete_event"] : List String)) :
    callToolHandler osa parse name args =
      (Except.error ⟨ErrorCode.MethodNotFound, "Unknown tool: " ++ name⟩, []) := by
  simp only [List.mem_cons, List.not_mem_nil, or_false, not_or] at h
  obtain ⟨h1, h2, h3, h4, h5⟩ := h
  simp [callToolHandler, h1, h2, h3, h4, h5]

/-- Witness for C1 at the concrete unregistered name
`"nonexistent_tool"`. -/
theorem callToolHandler_unknown_method_not_found_witness :
    ("nonexistent_tool" ∉ (["list_calendars", "list_events", "create_event", "update_event", "delete_event"] : List String)) ∧
    callToolHandler (fun _ _ => ExecResult.ok "") (fun _ => ⟨1, 0, 2024, 0, 0, 0⟩)
        "nonexistent_tool" {} =
      (Except.error ⟨ErrorCode.MethodNotFound, "Unknown tool: nonexistent_tool"⟩, []) := by
  refine ⟨by decide, ?_⟩
  exact (callToolHandler_unknown_method_not_found (fun _ _ => ExecResult.ok "")
    (fun _ => ⟨1, 0, 2024, 0, 0, 0⟩) "nonexistent_tool" {} (by decide)).trans rfl

/-- C3: `update_event` with all five optional fields absent performs no
interpreter call (the recorded call list is empty, for every oracle) and
returns the success result, for every event summary and calendar
name. -/
theorem update_event_all_absent_noop (osa : Osa) (parse : String → JSDate)
    (eventSummary calendarName : String) :
    callToolHandler osa parse "update_event"
        { eventSummary := some eventSummary, calendarName := some calendarName } =
      (Except.ok (ToolResult.updated true "Event updated" eventSummary), []) := rfl

/-- C10: `updateEvent` consults the interpreter exactly when at least one
optional field is effectively supplied: `newTitle`, `startDate` and
`endDate` count only when present and non-empty, while `location` and
`description` count whenever present, even as the empty string. -/
theorem updateEvent_call_iff_field_supplied (osa : Osa) (parse : String → JSDate)
    (eventSummary calendarName : String)
    (newTitle startDate endDate location description : Option String) :
    (updateEvent osa parse eventSummary calendarName newTitle startDate endDate location description).2 ≠ [] ↔
      ((∃ s, newTitle = some s ∧ s ≠ "") ∨ (∃ s, startDate = some s ∧ s ≠ "") ∨
        (∃ s, endDate = some s ∧ s ≠ "") ∨ location ≠ none ∨ description ≠ none) := by
  have key : updateSetProperties parse newTitle startDate endDate location description = [] ↔
      ¬((∃ s, newTitle = some s ∧ s ≠ "") ∨ (∃ s, startDate = some s ∧ s ≠ "") ∨
        (∃ s, endDate = some s ∧ s ≠ "") ∨ location ≠ none ∨ description ≠ none) := by
    cases newTitle <;> cases startDate <;> cases endDate <;> cases location <;> cases description <;>
      simp [updateSetProperties]
  by_cases h : updateSetProperties parse newTitle startDate endDate location description = []
  · have htr : (updateEvent osa parse eventSummary calendarName newTitle startDate endDate location description).2 = [] := by
      simp [updateEvent, h]
    simp only [htr, ne_eq, not_true_eq_false, false_iff]
    exact key.mp h
  · have hd := not_not.mp (fun hnd => h (key.mpr hnd))
    have hlen : ¬(updateSetProperties parse newTitle startDate endDate location description).length = 0 := by
      simpa [List.length_eq_zero] using h
    have htr : (updateEvent osa parse eventSummary calendarName newTitle startDate endDate location description).2 =
        [launchWrap (buildUpdateEventScript eventSummary calendarName
          (updateSetProperties parse newTitle startDate endDate location description))] := by
      rcases hosa : osa (launchWrap (buildUpdateEventScript eventSummary calendarName
          (updateSetProperties parse newTitle startDate endDate location description))) 30000 with out | ⟨se, m⟩ <;>
        simp [updateEvent, hlen, runAppleScript, hosa]
    simp only [htr, ne_eq, List.cons_ne_nil, not_false_eq_true, true_iff]
    exact hd

/-- C7: whenever a `create_event` invocation succeeds, the success result
carries the title as the synthetic `eventId`. -/
theorem create_event_returns_title_as_eventId (osa : Osa) (parse : String → JSDate)
    (args : Args) (t : String) (r : ToolResult) (calls : List String)
    (ht : args.title = some t)
    (h : callToolHandler osa parse "create_event" args = (Except.ok r, calls)) :
    r = ToolResult.created true "Event created" t := by
  unfold callToolHandler at h
  rw [if_neg (by decide), if_neg (by decide), if_pos rfl] at h
  rcases hosa : osa (launchWrap (buildCreateEventScript parse (args.title.getD "")
      (args.startDate.getD "") (args.endDate.getD "") args.calendarName args.location
      args.description args.isAllDay args.alarms)) 30000 with out | ⟨se, m⟩ <;>
    simp [createEvent, runAppleScript, hosa] at h
  rw [← h.1, ht]
  rfl

/-- Witness for C7 at the spec's scenario: `create_event` with title
`"Standup"`, the given dates and calendar `"Work"`, against an
interpreter that reports success, yields the success result with
`eventId` `"Standup"`. -/
theorem create_event_returns_title_as_eventId_witness :
    ({ title := some "Standup", startDate := some "2024-03-01T09:00:00",
       endDate := some "2024-03-01T09:15:00", calendarName := some "Work" } : Args).title =
      some "Standup" ∧
    (callToolHandler (fun _ _ => ExecResult.ok "created") (fun _ => ⟨1, 2, 2024, 9, 0, 0⟩)
        "create_event"
        { title := some "Standup", startDate := some "2024-03-01T09:00:00",
          endDate := some "2024-03-01T09:15:00", calendarName := some "Work" }).1 =
      Except.ok (ToolResult.created true "Event created" "Standup") ∧
    ToolResult.created true "Event created" "Standup" =
      ToolResult.created true "Event created" "Standup" := by
  refine ⟨rfl, rfl, ?_⟩
  exact (create_event_returns_title_as_eventId (fun _ _ => ExecResult.ok "created")
    (fun _ => ⟨1, 2, 2024, 9, 0, 0⟩)
    { title := some "Standup", startDate := some "2024-03-01T09:00:00",
      endDate := some "2024-03-01T09:15:00", calendarName := some "Work" }
    "Standup" (ToolResult.created true "Event created" "Standup")
    ((callToolHandler (fun _ _ => ExecResult.ok "created") (fun _ => ⟨1, 2, 2024, 9, 0, 0⟩)
        "create_event"
        { title := some "Standup", startDate := some "2024-03-01T09:00:00",
          endDate := some "2024-03-01T09:15:00", calendarName := some "Work" }).2)
    rfl rfl).symm

/-- C8: when the interpreter succeeds and the trimmed reply is empty
(zero matching events), `list_events` returns the empty list, not an
error. -/
theorem listEvents_empty_reply_empty_list (osa : Osa) (parse : String → JSDate)
    (startDate endDate : String) (calendarName : Option String) (out : String)
    (h1 : osa (launchWrap (buildListEventsScript parse startDate endDate calendarName)) 30000 =
      ExecResult.ok out)
    (h2 : jsTrim out = "") :
    (listEvents osa parse startDate endDate calendarName).1 = Except.ok [] := by
  simp [listEvents, runAppleScript, h1, h2]

/-- Witness for C8 at a concrete oracle replying with empty stdout. -/
theorem listEvents_empty_reply_empty_list_witness :
    ((fun _ _ => ExecResult.ok "" : Osa)
        (launchWrap (buildListEventsScript (fun _ => ⟨1, 0, 2024, 0, 0, 0⟩) "2024-01-01" "2024-12-31" none))
        30000 = ExecResult.ok "") ∧
    (listEvents (fun _ _ => ExecResult.ok "") (fun _ => ⟨1, 0, 2024, 0, 0, 0⟩)
        "2024-01-01" "2024-12-31" none).1 = Except.ok [] :=
  ⟨rfl, listEvents_empty_reply_empty_list _ _ _ _ _ _ rfl rfl⟩

/-- C9: the reply parser is a total function on reply strings; it splits
the reply on `~~~` into records (one returned event per record), each
record on `|||` into fields with missing fields defaulting to the empty
string, and every returned record has empty `description`, `id` the
decimal string of its zero-based position, and `isAllDay` true exactly
when the sixth field is the string `true`. -/
theorem parseEventsReply_record_fields (result : String) (i : Nat)
    (h : i < (parseEventsReply result).length) :
    (parseEventsReply result).length = (jsSplit result "~~~").length ∧
    (parseEventsReply result).get ⟨i, h⟩ =
      { id := toString i,
        summary := (jsSplit ((jsSplit result "~~~").getD i "") "|||").getD 0 "",
        startDate := (jsSplit ((jsSplit result "~~~").getD i "") "|||").getD 1 "",
        endDate := (jsSplit ((jsSplit result "~~~").getD i "") "|||").getD 2 "",
        location := (jsSplit ((jsSplit result "~~~").getD i "") "|||").getD 3 "",
        description := "",
        calendar := (jsSplit ((jsSplit result "~~~").getD i "") "|||").getD 4 "",
        isAllDay := ((jsSplit ((jsSplit result "~~~").getD i "") "|||").getD 5 "" == "true") } := by
  have hlen : (parseEventsReply result).length = (jsSplit result "~~~").length := by
    simp [parseEventsReply]
  refine ⟨hlen, ?_⟩
  have hi : i < (jsSplit result "~~~").length := hlen ▸ h
  have hget : (parseEventsReply result).get ⟨i, h⟩ =
      parseOneEvent i ((jsSplit result "~~~").get ⟨i, hi⟩) :=
    List.get_mapIdx (jsSplit result "~~~") parseOneEvent i hi
  rw [hget, List.getD_eq_getElem _ _ hi]
  rfl

/-- Witness for C9 at a concrete two-record reply with a short second
record. -/
theorem parseEventsReply_record_fields_witness :
    0 < (parseEventsReply "Standup|||d1|||d2|||Room|||Work|||true~~~Lunch").length ∧
    (parseEventsReply "Standup|||d1|||d2|||Room|||Work|||true~~~Lunch").length =
      (jsSplit "Standup|||d1|||d2|||Room|||Work|||true~~~Lunch" "~~~").length ∧
    (parseEventsReply "Standup|||d1|||d2|||Room|||Work|||true~~~Lunch").get ⟨0, by decide⟩ =
      { id := "0", summary := "Standup", startDate := "d1", endDate := "d2",
        location := "Room", description := "", calendar := "Work", isAllDay := true } := by
  refine ⟨by decide, ?_, ?_⟩
  · exact (parseEventsReply_record_fields "Standup|||d1|||d2|||Room|||Work|||true~~~Lunch" 0
      (by decide)).1
  · rw [(parseEventsReply_record_fields "Standup|||d1|||d2|||Room|||Work|||true~~~Lunch" 0
      (by decide)).2]
    decide
